import Mathlib

/-!
Verification of the `ble_adv` BLE advertisement library.

The decoder (`parse_eir` in `src/ble_adv.c`), the assembly part of
`ble_adv_read`, and the scan control sequence of `ble_adv_scan` are embedded
shallowly: byte buffers are `List Nat`, the output struct `ble_adv` is a Lean
structure whose fixed-size `char`/`uint8_t` arrays are byte lists of the
array's length, and the HCI transport is an oracle mapping the index of each
issued command to success or an errno value.
-/

/-! ## EIR entry types (`src/ble_adv.c`, lines 23-36) -/

def EIR_FLAGS : Nat := 0x01
def EIR_UUID16_SOME : Nat := 0x02
def EIR_UUID16_ALL : Nat := 0x03
def EIR_UUID32_SOME : Nat := 0x04
def EIR_UUID32_ALL : Nat := 0x05
def EIR_UUID128_SOME : Nat := 0x06
def EIR_UUID128_ALL : Nat := 0x07
def EIR_NAME_SHORT : Nat := 0x08
def EIR_NAME_COMPLETE : Nat := 0x09
def EIR_TX_POWER : Nat := 0x0A
def EIR_DEVICE_ID : Nat := 0x10
def EIR_SERVICE_DATA : Nat := 0x16
def EIR_URI : Nat := 0x24
def EIR_MANUFACTURER_SPECIFIC_DATA : Nat := 0xFF

/-! ## `has` bitmask flags (`src/include/ble_adv.h`, lines 31-38) -/

def BLE_ADV_HAS_UUID16 : Nat := 0x01
def BLE_ADV_HAS_UUID32 : Nat := 0x02
def BLE_ADV_HAS_UUID128 : Nat := 0x04
def BLE_ADV_HAS_SERVICE_DATA : Nat := 0x08
def BLE_ADV_HAS_MS_DATA : Nat := 0x10
def BLE_ADV_HAS_FLAGS : Nat := 0x20

/-! ## Scan flags (`src/include/ble_adv.h`, lines 21-24) -/

def BLE_ADV_SCAN_FLAG_ENABLED : Nat := 0x01
def BLE_ADV_SCAN_FLAG_NO_DUPLICATES : Nat := 0x02
def BLE_ADV_SCAN_FLAG_PASSIVE : Nat := 0x04
def BLE_ADV_SCAN_FLAG_PUBLIC_ADDR : Nat := 0x08

/-- `INT8_MAX`, the sentinel stored in `tx_power` when no TX power entry of
value length 1 was decoded. -/
def INT8_MAX : Int := 127

/-- The `errno` value `EIO`, checked by the busy-recovery path in
`ble_adv_scan`. -/
def EIO_CODE : Nat := 5

/-- Error results of `parse_eir`: `-EPROTO` (malformed encoding) and
`-EOVERFLOW` (field larger than the space in `dest`). -/
inductive Err where
  | eproto
  | eoverflow
deriving DecidableEq, Repr

/-- `struct ble_adv` (`src/include/ble_adv.h`, lines 57-89).  The fixed-size
byte arrays `uuid128[16]`, `addr[6]`, `name[29]`, `service_data[27]`,
`ms_data[27]` and `uri[30]` are modelled as byte lists; a well-formed record
keeps each list at exactly the declared array length. -/
structure ble_adv where
  uuid128 : List Nat
  uuid32 : Nat
  uuid16 : Nat
  service_uuid16 : Nat
  ms_uuid16 : Nat
  addr : List Nat
  name : List Nat
  name_len : Nat
  service_data : List Nat
  service_data_len : Nat
  ms_data : List Nat
  ms_data_len : Nat
  uri : List Nat
  uri_len : Nat
  flags : Nat
  rssi : Nat
  tx_power : Int
  has : Nat
deriving DecidableEq, Repr

/-- Models `memcpy(arr, src, src.length)` into a fixed-size buffer `arr`:
the first `src.length` bytes are replaced, later bytes keep their old value.
If `src` is longer than `arr` the result is longer than `arr`, which
represents a write past the end of the destination array. -/
def writeBytes (arr src : List Nat) : List Nat :=
  src ++ arr.drop src.length

/-- Little-endian read of a 16-bit value from the first two bytes
(`le16toh` after a 2-byte `memcpy`). -/
def le16 (v : List Nat) : Nat :=
  v.getD 0 0 + 256 * v.getD 1 0

/-- Little-endian read of a 32-bit value from the first four bytes
(`le32toh` after a 4-byte `memcpy`). -/
def le32 (v : List Nat) : Nat :=
  v.getD 0 0 + 256 * v.getD 1 0 + 65536 * v.getD 2 0 + 16777216 * v.getD 3 0

/-- The C cast `(int8_t)b` of a byte `b`. -/
def toInt8 (b : Nat) : Int :=
  if b < 128 then (b : Int) else (b : Int) - 256

/-- One arm of the `switch (header)` dispatch in `parse_eir`
(`src/ble_adv.c`, lines 85-171): given the type tag `header` and the
`field_len - 1` value bytes `v` of one TLV entry, returns the updated record
and `some` error when the arm returns early with `-EOVERFLOW`. -/
def applyEntry (dest : ble_adv) (header : Nat) (v : List Nat) : ble_adv × Option Err :=
  match header with
  | 0x01 =>
    if 1 ≤ v.length then
      ({ dest with flags := v.getD 0 0, has := dest.has ||| BLE_ADV_HAS_FLAGS }, none)
    else (dest, none)
  | 0x08 | 0x09 =>
    if v.length ≠ 0 then
      if 29 < v.length + 1 then (dest, some Err.eoverflow)
      else ({ dest with name := writeBytes dest.name (v ++ [0]),
                        name_len := v.length }, none)
    else (dest, none)
  | 0x0A =>
    if v.length = 1 then ({ dest with tx_power := toInt8 (v.getD 0 0) }, none)
    else (dest, none)
  | 0x16 =>
    if 2 ≤ v.length then
      if 27 < v.length - 2 then (dest, some Err.eoverflow)
      else ({ dest with service_uuid16 := le16 v,
                        service_data := writeBytes dest.service_data (v.drop 2),
                        service_data_len := v.length - 2,
                        has := dest.has ||| BLE_ADV_HAS_SERVICE_DATA }, none)
    else (dest, none)
  | 0xFF =>
    if 2 ≤ v.length then
      if 27 < v.length - 2 then (dest, some Err.eoverflow)
      else ({ dest with ms_uuid16 := le16 v,
                        ms_data := writeBytes dest.ms_data (v.drop 2),
                        ms_data_len := v.length - 2,
                        has := dest.has ||| BLE_ADV_HAS_MS_DATA }, none)
    else (dest, none)
  | 0x24 =>
    if v.length ≠ 0 then
      if 30 < v.length + 1 then (dest, some Err.eoverflow)
      else ({ dest with uri := writeBytes dest.uri (v ++ [0]),
                        uri_len := v.length }, none)
    else (dest, none)
  | 0x02 | 0x03 =>
    if 2 ≤ v.length then
      ({ dest with uuid16 := le16 v, has := dest.has ||| BLE_ADV_HAS_UUID16 }, none)
    else (dest, none)
  | 0x04 | 0x05 =>
    if 4 ≤ v.length then
      ({ dest with uuid32 := le32 v, has := dest.has ||| BLE_ADV_HAS_UUID32 }, none)
    else (dest, none)
  | 0x06 | 0x07 =>
    if 16 ≤ v.length then
      ({ dest with uuid128 := writeBytes dest.uuid128 (v.take 16),
                   has := dest.has ||| BLE_ADV_HAS_UUID128 }, none)
    else (dest, none)
  | _ => (dest, none)

/-- The `while (eir_len)` loop of `parse_eir` (`src/ble_adv.c`, lines 64-176):
reads a length byte `fl`; `fl = 0` terminates successfully; after consuming
the length byte, `fl` bytes must remain or the loop fails with `-EPROTO`;
otherwise the first of those bytes is the type tag and the next `fl - 1`
bytes the value, dispatched through `applyEntry`, after which the loop
continues past the value bytes.  The record is returned together with the
error so that the state written so far is visible on failure, exactly as the
C function leaves it in `*dest`. -/
def parse_eir_loop (dest : ble_adv) (eir : List Nat) : ble_adv × Option Err :=
  match eir with
  | [] => (dest, none)
  | fl :: rest =>
    if fl = 0 then (dest, none)
    else if rest.length < fl then (dest, some Err.eproto)
    else
      match rest with
      | [] => (dest, some Err.eproto)
      | header :: rest2 =>
        let r := applyEntry dest header (rest2.take (fl - 1))
        match r.2 with
        | some e => (r.1, some e)
        | none => parse_eir_loop r.1 (rest2.drop (fl - 1))
termination_by eir.length
decreasing_by simp [List.length_drop]; omega

/-- `parse_eir` (`src/ble_adv.c`, lines 58-177): resets `name_len`,
`uri_len`, `tx_power` and `has`, then walks the TLV entries. -/
def parse_eir (dest : ble_adv) (eir : List Nat) : ble_adv × Option Err :=
  parse_eir_loop
    { dest with name_len := 0, uri_len := 0, tx_power := INT8_MAX, has := 0 } eir

/-- The TLV entries (tag, value bytes) that the decode walk can reach in a
buffer: extraction stops at the end of the buffer, at a zero length byte and
at a declared length exceeding the remaining bytes. -/
def eirEntries : List Nat → List (Nat × List Nat)
  | [] => []
  | fl :: rest =>
    if fl = 0 then []
    else if rest.length < fl then []
    else
      match rest with
      | [] => []
      | header :: rest2 => (header, rest2.take (fl - 1)) :: eirEntries (rest2.drop (fl - 1))
termination_by l => l.length
decreasing_by simp [List.length_drop]; omega

/-- Every declared TLV length along the walk of the buffer is satisfiable:
no entry's length byte exceeds the bytes remaining after it. -/
def eirLenOk : List Nat → Bool
  | [] => true
  | fl :: rest =>
    if fl = 0 then true
    else if rest.length < fl then false
    else eirLenOk (rest.drop fl)
termination_by l => l.length
decreasing_by simp [List.length_drop]; omega

/-- The state update of one TLV entry, with the error dropped. -/
def applyOk (dest : ble_adv) (e : Nat × List Nat) : ble_adv :=
  (applyEntry dest e.1 e.2).1

/-- The bytes of the fallback string `"<unknown>"` including its terminating
zero byte (`src/ble_adv.c`, line 224). -/
def UNKNOWN_NAME : List Nat := [60, 117, 110, 107, 110, 111, 119, 110, 62, 0]

/-- The post-processing of `ble_adv_read` after a successful decode
(`src/ble_adv.c`, lines 223-231): if no name was decoded, copy the
`"<unknown>"` fallback string (terminator included) into the name bytes; if
no URI was decoded, copy the empty string (a single zero byte) into the URI
bytes. -/
def ble_adv_fallback_name (d : ble_adv) : ble_adv :=
  if d.name_len = 0 then { d with name := writeBytes d.name UNKNOWN_NAME } else d

/-- The URI part of the post-processing (`src/ble_adv.c`, lines 228-231). -/
def ble_adv_fallback_uri (d : ble_adv) : ble_adv :=
  if d.uri_len = 0 then { d with uri := writeBytes d.uri [0] } else d

/-- Both fallbacks, applied in the order of the C code. -/
def ble_adv_fallbacks (d : ble_adv) : ble_adv :=
  ble_adv_fallback_uri (ble_adv_fallback_name d)

/-- The pure assembly part of `ble_adv_read` (`src/ble_adv.c`, lines
208-235): reverse the 6 wire-order address bytes into `addr`, run
`parse_eir` on the advertising data, then install the `"<unknown>"` name
fallback and the empty URI fallback, and store the RSSI byte. -/
def ble_adv_read_assemble (dest : ble_adv) (bdaddr eirData : List Nat) (rssi : Nat) :
    ble_adv × Option Err :=
  match parse_eir
      { dest with addr := [bdaddr.getD 5 0, bdaddr.getD 4 0, bdaddr.getD 3 0,
                           bdaddr.getD 2 0, bdaddr.getD 1 0, bdaddr.getD 0 0] }
      eirData with
  | (d, some e) => (d, some e)
  | (d, none) => ({ ble_adv_fallbacks d with rssi := rssi }, none)

/-- The HCI transport calls that `ble_adv_scan` issues, in order.  The fixed
parameter bytes of the set-scan-parameters command (scan type, interval,
window, address type, filter policy) do not vary between the first attempt
and the retry and are omitted from the label. -/
inductive HciCmd where
  | setScanParameters
  | setScanEnable (enable : Bool) (filterDup : Nat)
  | setFilter
deriving DecidableEq, Repr

/-- The tail of the enable path of `ble_adv_scan` (`src/ble_adv.c`, lines
285-299): issue scan-enable=true with the duplicate filter, then install the
HCI event filter via `setsockopt`.  `k` is the index of the next transport
call in the oracle `resp`, `tr` the trace issued so far. -/
def scanTail (k : Nat) (tr : List HciCmd) (filterDup : Nat) (resp : Nat → Option Nat) :
    List HciCmd × Bool :=
  match resp k with
  | some _ => (tr ++ [HciCmd.setScanEnable true filterDup], false)
  | none =>
    match resp (k + 1) with
    | some _ => (tr ++ [HciCmd.setScanEnable true filterDup, HciCmd.setFilter], false)
    | none => (tr ++ [HciCmd.setScanEnable true filterDup, HciCmd.setFilter], true)

/-- `ble_adv_scan` (`src/ble_adv.c`, lines 245-300), with the transport
modelled as an oracle: `resp k` is the outcome of the k-th issued
HCI/socket call (`none` = success, `some e` = failure with `errno = e`).
Returns the trace of issued calls and whether the function returned 0. -/
def ble_adv_scan (dev : Int) (flags : Nat) (resp : Nat → Option Nat) :
    List HciCmd × Bool :=
  if dev = -1 then ([], false)
  else if flags &&& BLE_ADV_SCAN_FLAG_ENABLED = 0 then
    match resp 0 with
    | some _ => ([HciCmd.setScanEnable false 0], false)
    | none => ([HciCmd.setScanEnable false 0], true)
  else
    let filterDup : Nat := if flags &&& BLE_ADV_SCAN_FLAG_NO_DUPLICATES ≠ 0 then 1 else 0
    match resp 0 with
    | some e =>
      if e = EIO_CODE then
        match resp 1 with
        | some _ => ([HciCmd.setScanParameters, HciCmd.setScanEnable false 0], false)
        | none =>
          match resp 2 with
          | some _ => ([HciCmd.setScanParameters, HciCmd.setScanEnable false 0,
                        HciCmd.setScanParameters], false)
          | none => scanTail 3 [HciCmd.setScanParameters, HciCmd.setScanEnable false 0,
                                HciCmd.setScanParameters] filterDup resp
      else ([HciCmd.setScanParameters], false)
    | none => scanTail 1 [HciCmd.setScanParameters] filterDup resp

/-- A zeroed, well-formed `ble_adv` record with every byte array at its
declared C length. -/
def init0 : ble_adv where
  uuid128 := List.replicate 16 0
  uuid32 := 0
  uuid16 := 0
  service_uuid16 := 0
  ms_uuid16 := 0
  addr := List.replicate 6 0
  name := List.replicate 29 0
  name_len := 0
  service_data := List.replicate 27 0
  service_data_len := 0
  ms_data := List.replicate 27 0
  ms_data_len := 0
  uri := List.replicate 30 0
  uri_len := 0
  flags := 0
  rssi := 0
  tx_power := 0
  has := 0

/-! ## Basic lemmas about the loop and the byte writes -/

theorem writeBytes_length (arr src : List Nat) (h : src.length ≤ arr.length) :
    (writeBytes arr src).length = arr.length := by
  simp [writeBytes]
  omega

theorem writeBytes_take (arr src : List Nat) :
    (writeBytes arr src).take src.length = src := by
  simp [writeBytes]

theorem parse_eir_loop_nil (d : ble_adv) : parse_eir_loop d [] = (d, none) := by
  rw [parse_eir_loop.eq_def]

theorem parse_eir_loop_zero (d : ble_adv) (rest : List Nat) :
    parse_eir_loop d (0 :: rest) = (d, none) := by
  rw [parse_eir_loop.eq_def]
  simp

theorem parse_eir_loop_short (d : ble_adv) (fl : Nat) (rest : List Nat)
    (h0 : fl ≠ 0) (h : rest.length < fl) :
    parse_eir_loop d (fl :: rest) = (d, some Err.eproto) := by
  rw [parse_eir_loop.eq_def]
  simp [h0, h]

theorem parse_eir_loop_cons (d : ble_adv) (fl header : Nat) (rest2 : List Nat)
    (h0 : fl ≠ 0) (h : ¬(rest2.length + 1 < fl)) :
    parse_eir_loop d (fl :: header :: rest2) =
      match (applyEntry d header (rest2.take (fl - 1))).2 with
      | some e => ((applyEntry d header (rest2.take (fl - 1))).1, some e)
      | none => parse_eir_loop (applyEntry d header (rest2.take (fl - 1))).1
                  (rest2.drop (fl - 1)) := by
  rw [parse_eir_loop.eq_def]
  simp only [List.length_cons, h0, h, if_false, if_neg]

/-- The loop at a buffer laid out as one TLV entry of tag `tag` and value
`v` followed by the rest of the buffer. -/
theorem parse_eir_loop_entry (d : ble_adv) (tag : Nat) (v rest : List Nat) :
    parse_eir_loop d ((v.length + 1) :: tag :: (v ++ rest)) =
      match (applyEntry d tag v).2 with
      | some e => ((applyEntry d tag v).1, some e)
      | none => parse_eir_loop (applyEntry d tag v).1 rest := by
  rw [parse_eir_loop_cons d (v.length + 1) tag (v ++ rest) (by omega) (by simp)]
  simp [List.take_left, List.drop_left]

/-! ## Per-field behavior of one entry dispatch -/

theorem applyEntry_addr (d : ble_adv) (h : Nat) (v : List Nat) :
    (applyEntry d h v).1.addr = d.addr := by
  unfold applyEntry
  split <;> (try split_ifs) <;> rfl

theorem applyEntry_rssi (d : ble_adv) (h : Nat) (v : List Nat) :
    (applyEntry d h v).1.rssi = d.rssi := by
  unfold applyEntry
  split <;> (try split_ifs) <;> rfl

theorem applyEntry_name (d : ble_adv) (h : Nat) (v : List Nat)
    (h8 : h ≠ EIR_NAME_SHORT) (h9 : h ≠ EIR_NAME_COMPLETE) :
    (applyEntry d h v).1.name = d.name ∧ (applyEntry d h v).1.name_len = d.name_len := by
  unfold applyEntry
  split <;> (try split_ifs) <;> simp_all [EIR_NAME_SHORT, EIR_NAME_COMPLETE]

theorem applyEntry_uri (d : ble_adv) (h : Nat) (v : List Nat) (hu : h ≠ EIR_URI) :
    (applyEntry d h v).1.uri = d.uri ∧ (applyEntry d h v).1.uri_len = d.uri_len := by
  unfold applyEntry
  split <;> (try split_ifs) <;> simp_all [EIR_URI]

theorem applyEntry_flags (d : ble_adv) (h : Nat) (v : List Nat) (hf : h ≠ EIR_FLAGS) :
    (applyEntry d h v).1.flags = d.flags := by
  unfold applyEntry
  split <;> (try split_ifs) <;> simp_all [EIR_FLAGS]

theorem applyEntry_uuid16 (d : ble_adv) (h : Nat) (v : List Nat)
    (h2 : h ≠ EIR_UUID16_SOME) (h3 : h ≠ EIR_UUID16_ALL) :
    (applyEntry d h v).1.uuid16 = d.uuid16 := by
  unfold applyEntry
  split <;> (try split_ifs) <;> simp_all [EIR_UUID16_SOME, EIR_UUID16_ALL]

theorem applyEntry_uuid32 (d : ble_adv) (h : Nat) (v : List Nat)
    (h4 : h ≠ EIR_UUID32_SOME) (h5 : h ≠ EIR_UUID32_ALL) :
    (applyEntry d h v).1.uuid32 = d.uuid32 := by
  unfold applyEntry
  split <;> (try split_ifs) <;> simp_all [EIR_UUID32_SOME, EIR_UUID32_ALL]

theorem applyEntry_uuid128 (d : ble_adv) (h : Nat) (v : List Nat)
    (h6 : h ≠ EIR_UUID128_SOME) (h7 : h ≠ EIR_UUID128_ALL) :
    (applyEntry d h v).1.uuid128 = d.uuid128 := by
  unfold applyEntry
  split <;> (try split_ifs) <;> simp_all [EIR_UUID128_SOME, EIR_UUID128_ALL]

theorem applyEntry_service (d : ble_adv) (h : Nat) (v : List Nat)
    (hs : h ≠ EIR_SERVICE_DATA) :
    (applyEntry d h v).1.service_uuid16 = d.service_uuid16 ∧
    (applyEntry d h v).1.service_data = d.service_data ∧
    (applyEntry d h v).1.service_data_len = d.service_data_len := by
  unfold applyEntry
  split <;> (try split_ifs) <;> simp_all [EIR_SERVICE_DATA]

theorem applyEntry_ms (d : ble_adv) (h : Nat) (v : List Nat)
    (hm : h ≠ EIR_MANUFACTURER_SPECIFIC_DATA) :
    (applyEntry d h v).1.ms_uuid16 = d.ms_uuid16 ∧
    (applyEntry d h v).1.ms_data = d.ms_data ∧
    (applyEntry d h v).1.ms_data_len = d.ms_data_len := by
  unfold applyEntry
  split <;> (try split_ifs) <;> simp_all [EIR_MANUFACTURER_SPECIFIC_DATA]

theorem applyEntry_tx_power (d : ble_adv) (h : Nat) (v : List Nat) :
    (applyEntry d h v).1.tx_power =
      if h = EIR_TX_POWER ∧ v.length = 1 then toInt8 (v.getD 0 0) else d.tx_power := by
  unfold applyEntry
  split <;> (try split_ifs) <;> simp_all [EIR_TX_POWER]

/-- An entry arm that returns an error leaves the record untouched: the
overflow checks run before any byte of the value is stored. -/
theorem applyEntry_err_eq (d : ble_adv) (h : Nat) (v : List Nat) (e : Err)
    (he : (applyEntry d h v).2 = some e) : (applyEntry d h v).1 = d := by
  unfold applyEntry at he ⊢
  split <;> (try split_ifs) <;> simp_all

/-! ## The reachable entries and the walk as a fold -/

theorem eirEntries_nil : eirEntries [] = [] := by
  rw [eirEntries.eq_def]

theorem eirEntries_zero (rest : List Nat) : eirEntries (0 :: rest) = [] := by
  rw [eirEntries.eq_def]
  simp

theorem eirEntries_short (fl : Nat) (rest : List Nat) (h0 : fl ≠ 0)
    (h : rest.length < fl) : eirEntries (fl :: rest) = [] := by
  rw [eirEntries.eq_def]
  simp [h0, h]

theorem eirEntries_cons (fl header : Nat) (rest2 : List Nat) (h0 : fl ≠ 0)
    (h : ¬(rest2.length + 1 < fl)) :
    eirEntries (fl :: header :: rest2) =
      (header, rest2.take (fl - 1)) :: eirEntries (rest2.drop (fl - 1)) := by
  rw [eirEntries.eq_def]
  simp only [List.length_cons, h0, h, if_false, if_neg]

/-- Capacity well-formedness of a record: every modelled byte array has its
declared C length and every stored length is within its capacity. -/
def ble_adv_inv (d : ble_adv) : Prop :=
  d.name.length = 29 ∧ d.uri.length = 30 ∧ d.service_data.length = 27 ∧
  d.ms_data.length = 27 ∧ d.uuid128.length = 16 ∧ d.addr.length = 6 ∧
  d.name_len ≤ 28 ∧ d.uri_len ≤ 29 ∧ d.service_data_len ≤ 27 ∧ d.ms_data_len ≤ 27

theorem applyEntry_inv (d : ble_adv) (h : Nat) (v : List Nat) (hd : ble_adv_inv d) :
    ble_adv_inv (applyEntry d h v).1 := by
  unfold ble_adv_inv at hd ⊢
  unfold applyEntry
  split <;> (try split_ifs) <;> simp_all [writeBytes] <;> omega

theorem foldl_applyOk_inv (l : List (Nat × List Nat)) (d : ble_adv)
    (hd : ble_adv_inv d) : ble_adv_inv (List.foldl applyOk d l) := by
  induction l generalizing d with
  | nil => exact hd
  | cons e t ih => exact ih _ (applyEntry_inv d e.1 e.2 hd)

/-- The state after any run of the walk is the fold of the entry updates
over some prefix of the reachable entries: the walk can stop early on an
error, and an erroring entry leaves the state unchanged. -/
theorem parse_eir_loop_foldl_take (d : ble_adv) (eir : List Nat) :
    ∃ n, (parse_eir_loop d eir).1 = List.foldl applyOk d ((eirEntries eir).take n) := by
  induction d, eir using parse_eir_loop.induct with
  | case1 d => exact ⟨0, by simp [parse_eir_loop_nil]⟩
  | case2 d rest => exact ⟨0, by simp [parse_eir_loop_zero]⟩
  | case3 d fl rest h0 hlt => exact ⟨0, by simp [parse_eir_loop_short d fl rest h0 hlt]⟩
  | case4 d fl h0 hn => exact absurd (Nat.pos_of_ne_zero h0) hn
  | case5 d fl h0 header rest2 r e hre hn =>
      have hre2 : (applyEntry d header (List.take (fl - 1) rest2)).2 = some e := hre
      refine ⟨1, ?_⟩
      simp only [List.length_cons] at hn
      rw [parse_eir_loop_cons d fl header rest2 h0 hn,
          eirEntries_cons fl header rest2 h0 hn]
      simp [hre2, applyOk]
  | case6 d fl h0 header rest2 r hre hn ih =>
      have hre2 : (applyEntry d header (List.take (fl - 1) rest2)).2 = none := hre
      have ih2 : ∃ n, (parse_eir_loop (applyEntry d header (List.take (fl - 1) rest2)).1
          (List.drop (fl - 1) rest2)).1 =
          List.foldl applyOk (applyEntry d header (List.take (fl - 1) rest2)).1
            (List.take n (eirEntries (List.drop (fl - 1) rest2))) := ih
      obtain ⟨n, hfold⟩ := ih2
      refine ⟨n + 1, ?_⟩
      simp only [List.length_cons] at hn
      rw [parse_eir_loop_cons d fl header rest2 h0 hn,
          eirEntries_cons fl header rest2 h0 hn]
      simp [hre2, applyOk, hfold]

/-- On success the walk visits exactly the reachable entries and the final
state is the fold of all their updates. -/
theorem parse_eir_loop_foldl_of_ok (d : ble_adv) (eir : List Nat)
    (hok : (parse_eir_loop d eir).2 = none) :
    (parse_eir_loop d eir).1 = List.foldl applyOk d (eirEntries eir) := by
  induction d, eir using parse_eir_loop.induct with
  | case1 d => simp [parse_eir_loop_nil, eirEntries_nil]
  | case2 d rest => simp [parse_eir_loop_zero, eirEntries_zero]
  | case3 d fl rest h0 hlt =>
      rw [parse_eir_loop_short d fl rest h0 hlt] at hok
      cases hok
  | case4 d fl h0 hn => exact absurd (Nat.pos_of_ne_zero h0) hn
  | case5 d fl h0 header rest2 r e hre hn =>
      have hre2 : (applyEntry d header (List.take (fl - 1) rest2)).2 = some e := hre
      simp only [List.length_cons] at hn
      rw [parse_eir_loop_cons d fl header rest2 h0 hn] at hok
      simp [hre2] at hok
  | case6 d fl h0 header rest2 r hre hn ih =>
      have hre2 : (applyEntry d header (List.take (fl - 1) rest2)).2 = none := hre
      have ih2 : (parse_eir_loop (applyEntry d header (List.take (fl - 1) rest2)).1
            (List.drop (fl - 1) rest2)).2 = none →
          (parse_eir_loop (applyEntry d header (List.take (fl - 1) rest2)).1
            (List.drop (fl - 1) rest2)).1 =
          List.foldl applyOk (applyEntry d header (List.take (fl - 1) rest2)).1
            (eirEntries (List.drop (fl - 1) rest2)) := ih
      simp only [List.length_cons] at hn
      rw [parse_eir_loop_cons d fl header rest2 h0 hn] at hok ⊢
      simp only [hre2] at hok ⊢
      rw [eirEntries_cons fl header rest2 h0 hn]
      simp only [List.foldl_cons]
      exact ih2 hok

/-! ## Frame lemmas: entries of unrelated tags leave a field untouched -/

theorem foldl_applyOk_addr (l : List (Nat × List Nat)) (d : ble_adv) :
    (List.foldl applyOk d l).addr = d.addr := by
  induction l generalizing d with
  | nil => rfl
  | cons e t ih => rw [List.foldl_cons, ih, applyOk, applyEntry_addr]

theorem foldl_applyOk_flags (l : List (Nat × List Nat)) (d : ble_adv)
    (hl : ∀ e ∈ l, e.1 ≠ EIR_FLAGS) : (List.foldl applyOk d l).flags = d.flags := by
  induction l generalizing d with
  | nil => rfl
  | cons e t ih =>
      rw [List.foldl_cons, ih _ fun x hx => hl x (List.mem_cons_of_mem e hx),
          applyOk, applyEntry_flags _ _ _ (hl e (List.mem_cons_self e t))]

theorem foldl_applyOk_uuid16 (l : List (Nat × List Nat)) (d : ble_adv)
    (hl : ∀ e ∈ l, e.1 ≠ EIR_UUID16_SOME ∧ e.1 ≠ EIR_UUID16_ALL) :
    (List.foldl applyOk d l).uuid16 = d.uuid16 := by
  induction l generalizing d with
  | nil => rfl
  | cons e t ih =>
      rw [List.foldl_cons, ih _ fun x hx => hl x (List.mem_cons_of_mem e hx),
          applyOk, applyEntry_uuid16 _ _ _ (hl e (List.mem_cons_self e t)).1
            (hl e (List.mem_cons_self e t)).2]

theorem foldl_applyOk_uuid32 (l : List (Nat × List Nat)) (d : ble_adv)
    (hl : ∀ e ∈ l, e.1 ≠ EIR_UUID32_SOME ∧ e.1 ≠ EIR_UUID32_ALL) :
    (List.foldl applyOk d l).uuid32 = d.uuid32 := by
  induction l generalizing d with
  | nil => rfl
  | cons e t ih =>
      rw [List.foldl_cons, ih _ fun x hx => hl x (List.mem_cons_of_mem e hx),
          applyOk, applyEntry_uuid32 _ _ _ (hl e (List.mem_cons_self e t)).1
            (hl e (List.mem_cons_self e t)).2]

theorem foldl_applyOk_uuid128 (l : List (Nat × List Nat)) (d : ble_adv)
    (hl : ∀ e ∈ l, e.1 ≠ EIR_UUID128_SOME ∧ e.1 ≠ EIR_UUID128_ALL) :
    (List.foldl applyOk d l).uuid128 = d.uuid128 := by
  induction l generalizing d with
  | nil => rfl
  | cons e t ih =>
      rw [List.foldl_cons, ih _ fun x hx => hl x (List.mem_cons_of_mem e hx),
          applyOk, applyEntry_uuid128 _ _ _ (hl e (List.mem_cons_self e t)).1
            (hl e (List.mem_cons_self e t)).2]

theorem foldl_applyOk_service (l : List (Nat × List Nat)) (d : ble_adv)
    (hl : ∀ e ∈ l, e.1 ≠ EIR_SERVICE_DATA) :
    (List.foldl applyOk d l).service_uuid16 = d.service_uuid16 ∧
    (List.foldl applyOk d l).service_data = d.service_data ∧
    (List.foldl applyOk d l).service_data_len = d.service_data_len := by
  induction l generalizing d with
  | nil => exact ⟨rfl, rfl, rfl⟩
  | cons e t ih =>
      have h1 := applyEntry_service d e.1 e.2 (hl e (List.mem_cons_self e t))
      have h2 := ih (applyOk d e) fun x hx => hl x (List.mem_cons_of_mem e hx)
      rw [List.foldl_cons]
      exact ⟨h2.1.trans h1.1, h2.2.1.trans h1.2.1, h2.2.2.trans h1.2.2⟩

theorem foldl_applyOk_ms (l : List (Nat × List Nat)) (d : ble_adv)
    (hl : ∀ e ∈ l, e.1 ≠ EIR_MANUFACTURER_SPECIFIC_DATA) :
    (List.foldl applyOk d l).ms_uuid16 = d.ms_uuid16 ∧
    (List.foldl applyOk d l).ms_data = d.ms_data ∧
    (List.foldl applyOk d l).ms_data_len = d.ms_data_len := by
  induction l generalizing d with
  | nil => exact ⟨rfl, rfl, rfl⟩
  | cons e t ih =>
      have h1 := applyEntry_ms d e.1 e.2 (hl e (List.mem_cons_self e t))
      have h2 := ih (applyOk d e) fun x hx => hl x (List.mem_cons_of_mem e hx)
      rw [List.foldl_cons]
      exact ⟨h2.1.trans h1.1, h2.2.1.trans h1.2.1, h2.2.2.trans h1.2.2⟩

theorem foldl_applyOk_name (l : List (Nat × List Nat)) (d : ble_adv)
    (hl : ∀ e ∈ l, e.1 ≠ EIR_NAME_SHORT ∧ e.1 ≠ EIR_NAME_COMPLETE) :
    (List.foldl applyOk d l).name = d.name ∧
    (List.foldl applyOk d l).name_len = d.name_len := by
  induction l generalizing d with
  | nil => exact ⟨rfl, rfl⟩
  | cons e t ih =>
      have h1 := applyEntry_name d e.1 e.2 (hl e (List.mem_cons_self e t)).1
        (hl e (List.mem_cons_self e t)).2
      have h2 := ih (applyOk d e) fun x hx => hl x (List.mem_cons_of_mem e hx)
      rw [List.foldl_cons]
      exact ⟨h2.1.trans h1.1, h2.2.trans h1.2⟩

theorem foldl_applyOk_uri (l : List (Nat × List Nat)) (d : ble_adv)
    (hl : ∀ e ∈ l, e.1 ≠ EIR_URI) :
    (List.foldl applyOk d l).uri = d.uri ∧
    (List.foldl applyOk d l).uri_len = d.uri_len := by
  induction l generalizing d with
  | nil => exact ⟨rfl, rfl⟩
  | cons e t ih =>
      have h1 := applyEntry_uri d e.1 e.2 (hl e (List.mem_cons_self e t))
      have h2 := ih (applyOk d e) fun x hx => hl x (List.mem_cons_of_mem e hx)
      rw [List.foldl_cons]
      exact ⟨h2.1.trans h1.1, h2.2.trans h1.2⟩

/-- The only error an entry arm can produce is the overflow error: `-EPROTO`
comes solely from the framing check that precedes the dispatch. -/
theorem applyEntry_err_eoverflow (d : ble_adv) (h : Nat) (v : List Nat) (e : Err)
    (he : (applyEntry d h v).2 = some e) : e = Err.eoverflow := by
  unfold applyEntry at he
  split at he <;> (try split_ifs at he) <;> simp_all

theorem eirLenOk_nil : eirLenOk [] = true := by
  rw [eirLenOk.eq_def]

theorem eirLenOk_zero (rest : List Nat) : eirLenOk (0 :: rest) = true := by
  rw [eirLenOk.eq_def]
  simp

theorem eirLenOk_short (fl : Nat) (rest : List Nat) (h0 : fl ≠ 0)
    (h : rest.length < fl) : eirLenOk (fl :: rest) = false := by
  rw [eirLenOk.eq_def]
  simp [h0, h]

theorem eirLenOk_cons (fl header : Nat) (rest2 : List Nat) (h0 : fl ≠ 0)
    (h : ¬(rest2.length + 1 < fl)) :
    eirLenOk (fl :: header :: rest2) = eirLenOk (rest2.drop (fl - 1)) := by
  obtain ⟨m, rfl⟩ := Nat.exists_eq_succ_of_ne_zero h0
  rw [eirLenOk.eq_def]
  simp only [List.length_cons, h, if_neg, if_false]
  simp [List.drop_succ_cons]

/-- A walk over a buffer whose declared lengths are all satisfiable never
returns the malformed-encoding error. -/
theorem parse_eir_loop_no_eproto (d : ble_adv) (eir : List Nat)
    (h : eirLenOk eir = true) : (parse_eir_loop d eir).2 ≠ some Err.eproto := by
  induction d, eir using parse_eir_loop.induct with
  | case1 d => simp [parse_eir_loop_nil]
  | case2 d rest => simp [parse_eir_loop_zero]
  | case3 d fl rest h0 hlt => rw [eirLenOk_short fl rest h0 hlt] at h; cases h
  | case4 d fl h0 hn => exact absurd (Nat.pos_of_ne_zero h0) hn
  | case5 d fl h0 header rest2 r e hre hn =>
      have hre2 : (applyEntry d header (List.take (fl - 1) rest2)).2 = some e := hre
      simp only [List.length_cons] at hn
      rw [parse_eir_loop_cons d fl header rest2 h0 hn]
      have he := applyEntry_err_eoverflow d header (List.take (fl - 1) rest2) e hre2
      simp [hre2, he]
  | case6 d fl h0 header rest2 r hre hn ih =>
      have hre2 : (applyEntry d header (List.take (fl - 1) rest2)).2 = none := hre
      simp only [List.length_cons] at hn
      rw [eirLenOk_cons fl header rest2 h0 hn] at h
      rw [parse_eir_loop_cons d fl header rest2 h0 hn]
      simp only [hre2]
      exact ih h

/-! ## Claims -/

/-- C3: a length byte of 0 ends the decode walk successfully, ignoring all
remaining bytes; the buffer [0x02,0x01,0x06,0x00,0xFF,0xFF] decodes
successfully with flags = 0x06 and the flags presence bit set, and the
trailing 0xFF,0xFF bytes have no effect on the result. -/
theorem C3_zero_terminator :
    (∀ (d : ble_adv) (rest : List Nat), parse_eir_loop d (0 :: rest) = (d, none)) ∧
    (∀ d : ble_adv, parse_eir d [2, 1, 6, 0, 255, 255] = parse_eir d [2, 1, 6]) ∧
    (∀ d : ble_adv, (parse_eir d [2, 1, 6, 0, 255, 255]).2 = none ∧
      (parse_eir d [2, 1, 6, 0, 255, 255]).1.flags = 6 ∧
      (parse_eir d [2, 1, 6, 0, 255, 255]).1.has &&& BLE_ADV_HAS_FLAGS ≠ 0) := by
  refine ⟨parse_eir_loop_zero, ?_, ?_⟩
  · intro d
    simp [parse_eir, parse_eir_loop, applyEntry]
  · intro d
    simp [parse_eir, parse_eir_loop, applyEntry, BLE_ADV_HAS_FLAGS]

/-- C1: a TLV entry reached by the decode walk whose non-zero declared
length exceeds the bytes remaining after the length byte makes the decode
fail with the malformed-encoding error `-EPROTO`, whatever its tag byte; and
on a buffer in which every declared length along the walk is satisfiable,
decode never returns `-EPROTO`. -/
theorem C1_eproto_malformed :
    (∀ (d : ble_adv) (fl : Nat) (rest : List Nat), fl ≠ 0 → rest.length < fl →
      parse_eir_loop d (fl :: rest) = (d, some Err.eproto)) ∧
    (∀ (d : ble_adv) (eir : List Nat), eirLenOk eir = true →
      (parse_eir d eir).2 ≠ some Err.eproto) := by
  refine ⟨parse_eir_loop_short, ?_⟩
  intro d eir h
  exact parse_eir_loop_no_eproto _ eir h

/-- Witness for C1: the malformed buffer [3,1,2] (declared length 3, two
bytes after the length byte) fails with `-EPROTO`, and the well-formed
buffer [2,1,6] never produces `-EPROTO`. -/
theorem C1_eproto_malformed_witness :
    parse_eir_loop init0 [3, 1, 2] = (init0, some Err.eproto) ∧
    (parse_eir init0 [2, 1, 6]).2 ≠ some Err.eproto :=
  ⟨C1_eproto_malformed.1 init0 3 [1, 2] (by decide) (by decide),
   C1_eproto_malformed.2 init0 [2, 1, 6] (by simp [eirLenOk])⟩

/-- C2: starting from a record whose byte arrays have their declared C
lengths and whose stored lengths are within capacity, decoding any buffer
(succeeding or failing) keeps every stored length within its capacity
(name_len ≤ 28, uri_len ≤ 29, service_data_len ≤ 27, ms_data_len ≤ 27) and
never grows a byte array past its capacity; moreover an entry arm that
reports the overflow error returns the record unchanged, so no byte of an
over-capacity value is ever stored. -/
theorem C2_capacity_inv (d : ble_adv) (eir : List Nat) (hd : ble_adv_inv d) :
    (ble_adv_inv (parse_eir d eir).1 ∧
     (parse_eir d eir).1.name_len ≤ 28 ∧ (parse_eir d eir).1.uri_len ≤ 29 ∧
     (parse_eir d eir).1.service_data_len ≤ 27 ∧
     (parse_eir d eir).1.ms_data_len ≤ 27) ∧
    (∀ (d2 : ble_adv) (h : Nat) (v : List Nat),
      (applyEntry d2 h v).2 = some Err.eoverflow → (applyEntry d2 h v).1 = d2) := by
  have hd0 : ble_adv_inv
      { d with name_len := 0, uri_len := 0, tx_power := INT8_MAX, has := 0 } := by
    obtain ⟨h1, h2, h3, h4, h5, h6, _, _, h9, h10⟩ := hd
    exact ⟨h1, h2, h3, h4, h5, h6, by simp, by simp, h9, h10⟩
  obtain ⟨n, hw⟩ := parse_eir_loop_foldl_take
    { d with name_len := 0, uri_len := 0, tx_power := INT8_MAX, has := 0 } eir
  have hinv : ble_adv_inv (parse_eir d eir).1 := by
    rw [parse_eir, hw]
    exact foldl_applyOk_inv _ _ hd0
  exact ⟨⟨hinv, hinv.2.2.2.2.2.2.1, hinv.2.2.2.2.2.2.2.1,
          hinv.2.2.2.2.2.2.2.2.1, hinv.2.2.2.2.2.2.2.2.2⟩,
         fun d2 h v he => applyEntry_err_eq d2 h v Err.eoverflow he⟩

/-- Witness for C2: the zeroed record is well formed and decoding [2,1,6]
from it keeps every capacity bound. -/
theorem C2_capacity_inv_witness : ble_adv_inv (parse_eir init0 [2, 1, 6]).1 :=
  (C2_capacity_inv init0 [2, 1, 6] (by unfold ble_adv_inv; decide)).1.1

/-- C10: decode first resets only name_len, uri_len, tx_power and the
presence bitmask (visible on the empty buffer), and a field whose TLV tag
appears in no reachable entry keeps the destination record's prior
contents, so after decoding, absence must be judged from the presence
bitmask (or the name/URI length fields), not from the field bytes. -/
theorem C10_init_and_frame :
    (∀ d : ble_adv, parse_eir d [] =
      ({ d with name_len := 0, uri_len := 0, tx_power := INT8_MAX, has := 0 }, none)) ∧
    (∀ (d : ble_adv) (eir : List Nat),
      ((∀ e ∈ eirEntries eir, e.1 ≠ EIR_FLAGS) →
        (parse_eir d eir).1.flags = d.flags) ∧
      ((∀ e ∈ eirEntries eir, e.1 ≠ EIR_UUID16_SOME ∧ e.1 ≠ EIR_UUID16_ALL) →
        (parse_eir d eir).1.uuid16 = d.uuid16) ∧
      ((∀ e ∈ eirEntries eir, e.1 ≠ EIR_UUID32_SOME ∧ e.1 ≠ EIR_UUID32_ALL) →
        (parse_eir d eir).1.uuid32 = d.uuid32) ∧
      ((∀ e ∈ eirEntries eir, e.1 ≠ EIR_UUID128_SOME ∧ e.1 ≠ EIR_UUID128_ALL) →
        (parse_eir d eir).1.uuid128 = d.uuid128) ∧
      ((∀ e ∈ eirEntries eir, e.1 ≠ EIR_SERVICE_DATA) →
        (parse_eir d eir).1.service_uuid16 = d.service_uuid16 ∧
        (parse_eir d eir).1.service_data = d.service_data ∧
        (parse_eir d eir).1.service_data_len = d.service_data_len) ∧
      ((∀ e ∈ eirEntries eir, e.1 ≠ EIR_MANUFACTURER_SPECIFIC_DATA) →
        (parse_eir d eir).1.ms_uuid16 = d.ms_uuid16 ∧
        (parse_eir d eir).1.ms_data = d.ms_data ∧
        (parse_eir d eir).1.ms_data_len = d.ms_data_len)) := by
  constructor
  · intro d
    rw [parse_eir, parse_eir_loop_nil]
  · intro d eir
    obtain ⟨n, hw⟩ := parse_eir_loop_foldl_take
      { d with name_len := 0, uri_len := 0, tx_power := INT8_MAX, has := 0 } eir
    have hsub : ∀ e : Nat × List Nat,
        e ∈ (eirEntries eir).take n → e ∈ eirEntries eir :=
      fun e he => List.take_subset n (eirEntries eir) he
    refine ⟨?_, ?_, ?_, ?_, ?_, ?_⟩
    · intro hnone
      rw [parse_eir, hw, foldl_applyOk_flags _ _ fun e he => hnone e (hsub e he)]
    · intro hnone
      rw [parse_eir, hw, foldl_applyOk_uuid16 _ _ fun e he => hnone e (hsub e he)]
    · intro hnone
      rw [parse_eir, hw, foldl_applyOk_uuid32 _ _ fun e he => hnone e (hsub e he)]
    · intro hnone
      rw [parse_eir, hw, foldl_applyOk_uuid128 _ _ fun e he => hnone e (hsub e he)]
    · intro hnone
      have h := foldl_applyOk_service ((eirEntries eir).take n)
        { d with name_len := 0, uri_len := 0, tx_power := INT8_MAX, has := 0 }
        fun e he => hnone e (hsub e he)
      rw [parse_eir, hw]
      exact h
    · intro hnone
      have h := foldl_applyOk_ms ((eirEntries eir).take n)
        { d with name_len := 0, uri_len := 0, tx_power := INT8_MAX, has := 0 }
        fun e he => hnone e (hsub e he)
      rw [parse_eir, hw]
      exact h

/-- Witness for C10: decoding [2,10,200] (a TX power entry only) leaves
every field other than tx_power and the reset fields at its prior value. -/
theorem C10_init_and_frame_witness :
    (parse_eir init0 [2, 10, 200]).1.flags = init0.flags ∧
    (parse_eir init0 [2, 10, 200]).1.service_data = init0.service_data :=
  ⟨((C10_init_and_frame.2 init0 [2, 10, 200]).1 (by simp [eirEntries, EIR_FLAGS])),
   ((C10_init_and_frame.2 init0 [2, 10, 200]).2.2.2.2.1
      (by simp [eirEntries, EIR_SERVICE_DATA])).2.1⟩

/-- Characterization following the claim's words: the transmit power equals
the sentinel `INT8_MAX` unless a TX-power entry (tag 0x0A) of value length
exactly 1 occurs among the reached entries, in which case it equals the
(last) such entry's value byte read as a signed byte; entries of other
lengths leave the previous value in place. -/
def tx_power_spec (eir : List Nat) : Int :=
  List.foldl
    (fun acc e => if e.1 = EIR_TX_POWER ∧ e.2.length = 1
      then toInt8 (e.2.getD 0 0) else acc)
    INT8_MAX (eirEntries eir)

theorem foldl_applyOk_tx (l : List (Nat × List Nat)) (d : ble_adv) :
    (List.foldl applyOk d l).tx_power =
      List.foldl
        (fun acc e => if e.1 = EIR_TX_POWER ∧ e.2.length = 1
          then toInt8 (e.2.getD 0 0) else acc)
        d.tx_power l := by
  induction l generalizing d with
  | nil => rfl
  | cons e t ih =>
      rw [List.foldl_cons, List.foldl_cons, ih]
      rw [show (applyOk d e).tx_power =
            (if e.1 = EIR_TX_POWER ∧ e.2.length = 1
              then toInt8 (e.2.getD 0 0) else d.tx_power) from
            applyEntry_tx_power d e.1 e.2]

/-- C8: on every buffer on which decode succeeds, the stored transmit power
is the sentinel `INT8_MAX` unless the buffer holds a TX-power TLV entry of
value length exactly 1, in which case it is that entry's byte read as a
signed byte; TX-power entries of any other value length are ignored and
leave the sentinel or a previously decoded value in place. -/
theorem C8_tx_power (d : ble_adv) (eir : List Nat)
    (hok : (parse_eir d eir).2 = none) :
    (parse_eir d eir).1.tx_power = tx_power_spec eir := by
  have hfold := parse_eir_loop_foldl_of_ok
    { d with name_len := 0, uri_len := 0, tx_power := INT8_MAX, has := 0 } eir hok
  rw [parse_eir, hfold, foldl_applyOk_tx, tx_power_spec]

/-- Witness for C8: the buffer [2,10,200] decodes successfully and stores
the TX power byte 200 as the signed value -56. -/
theorem C8_tx_power_witness :
    (parse_eir init0 [2, 10, 200]).1.tx_power = tx_power_spec [2, 10, 200] ∧
    (parse_eir init0 [2, 10, 200]).1.tx_power = -56 := by
  have h := C8_tx_power init0 [2, 10, 200]
    (by simp [parse_eir, parse_eir_loop, applyEntry])
  exact ⟨h, by rw [h]; simp [tx_power_spec, eirEntries, EIR_TX_POWER, toInt8]⟩

/-! ## Branch equations for the service-data, manufacturer-data and name arms -/

theorem applyEntry_service_short (d : ble_adv) (v : List Nat) (h : v.length < 2) :
    applyEntry d EIR_SERVICE_DATA v = (d, none) := by
  unfold applyEntry
  simp [EIR_SERVICE_DATA, show ¬(2 ≤ v.length) from by omega]

theorem applyEntry_service_store (d : ble_adv) (v : List Nat)
    (h2 : 2 ≤ v.length) (h29 : v.length ≤ 29) :
    applyEntry d EIR_SERVICE_DATA v =
      ({ d with service_uuid16 := le16 v,
                service_data := writeBytes d.service_data (v.drop 2),
                service_data_len := v.length - 2,
                has := d.has ||| BLE_ADV_HAS_SERVICE_DATA }, none) := by
  unfold applyEntry
  simp [EIR_SERVICE_DATA, h2, show ¬(27 < v.length - 2) from by omega]

theorem applyEntry_service_overflow (d : ble_adv) (v : List Nat)
    (h : 30 ≤ v.length) :
    applyEntry d EIR_SERVICE_DATA v = (d, some Err.eoverflow) := by
  unfold applyEntry
  simp [EIR_SERVICE_DATA, show 2 ≤ v.length from by omega,
        show 27 < v.length - 2 from by omega]

theorem applyEntry_ms_short (d : ble_adv) (v : List Nat) (h : v.length < 2) :
    applyEntry d EIR_MANUFACTURER_SPECIFIC_DATA v = (d, none) := by
  unfold applyEntry
  simp [EIR_MANUFACTURER_SPECIFIC_DATA, show ¬(2 ≤ v.length) from by omega]

theorem applyEntry_ms_store (d : ble_adv) (v : List Nat)
    (h2 : 2 ≤ v.length) (h29 : v.length ≤ 29) :
    applyEntry d EIR_MANUFACTURER_SPECIFIC_DATA v =
      ({ d with ms_uuid16 := le16 v,
                ms_data := writeBytes d.ms_data (v.drop 2),
                ms_data_len := v.length - 2,
                has := d.has ||| BLE_ADV_HAS_MS_DATA }, none) := by
  unfold applyEntry
  simp [EIR_MANUFACTURER_SPECIFIC_DATA, h2, show ¬(27 < v.length - 2) from by omega]

theorem applyEntry_ms_overflow (d : ble_adv) (v : List Nat)
    (h : 30 ≤ v.length) :
    applyEntry d EIR_MANUFACTURER_SPECIFIC_DATA v = (d, some Err.eoverflow) := by
  unfold applyEntry
  simp [EIR_MANUFACTURER_SPECIFIC_DATA, show 2 ≤ v.length from by omega,
        show 27 < v.length - 2 from by omega]

theorem applyEntry_name_store (d : ble_adv) (v : List Nat) (tag : Nat)
    (htag : tag = EIR_NAME_SHORT ∨ tag = EIR_NAME_COMPLETE)
    (hne : v ≠ []) (h28 : v.length ≤ 28) :
    applyEntry d tag v =
      ({ d with name := writeBytes d.name (v ++ [0]), name_len := v.length }, none) := by
  have hv : v.length ≠ 0 := by simpa using hne
  rcases htag with h | h <;>
    (subst h
     unfold applyEntry
     simp [EIR_NAME_SHORT, EIR_NAME_COMPLETE, hv, show ¬(29 < v.length + 1) from by omega])

theorem applyEntry_name_overflow (d : ble_adv) (v : List Nat) (tag : Nat)
    (htag : tag = EIR_NAME_SHORT ∨ tag = EIR_NAME_COMPLETE)
    (h29 : 29 ≤ v.length) :
    applyEntry d tag v = (d, some Err.eoverflow) := by
  have hv : v.length ≠ 0 := by omega
  rcases htag with h | h <;>
    (subst h
     unfold applyEntry
     simp [EIR_NAME_SHORT, EIR_NAME_COMPLETE, hv, show 29 < v.length + 1 from by omega])

/-- C4: a service-data (0x16) or manufacturer-specific-data (0xFF) entry
with value length < 2 is skipped without error; with 2 ≤ value length ≤ 29
the 16-bit little-endian identifier and the value-length-minus-2 payload are
stored (so length exactly 2 stores an empty payload) and the presence bit is
set; with value length ≥ 30 the walk fails with the overflow error.  In
particular value length 29 stores a 27-byte payload and value length 30
overflows. -/
theorem C4_service_ms_entries (d : ble_adv) (v rest : List Nat) :
    (v.length < 2 →
      parse_eir_loop d ((v.length + 1) :: EIR_SERVICE_DATA :: (v ++ rest)) =
        parse_eir_loop d rest ∧
      parse_eir_loop d
          ((v.length + 1) :: EIR_MANUFACTURER_SPECIFIC_DATA :: (v ++ rest)) =
        parse_eir_loop d rest) ∧
    (2 ≤ v.length → v.length ≤ 29 →
      parse_eir_loop d ((v.length + 1) :: EIR_SERVICE_DATA :: (v ++ rest)) =
        parse_eir_loop
          { d with
              service_uuid16 := le16 v,
              service_data := writeBytes d.service_data (v.drop 2),
              service_data_len := v.length - 2,
              has := d.has ||| BLE_ADV_HAS_SERVICE_DATA } rest ∧
      parse_eir_loop d
          ((v.length + 1) :: EIR_MANUFACTURER_SPECIFIC_DATA :: (v ++ rest)) =
        parse_eir_loop
          { d with
              ms_uuid16 := le16 v,
              ms_data := writeBytes d.ms_data (v.drop 2),
              ms_data_len := v.length - 2,
              has := d.has ||| BLE_ADV_HAS_MS_DATA } rest) ∧
    (30 ≤ v.length →
      parse_eir_loop d ((v.length + 1) :: EIR_SERVICE_DATA :: (v ++ rest)) =
        (d, some Err.eoverflow) ∧
      parse_eir_loop d
          ((v.length + 1) :: EIR_MANUFACTURER_SPECIFIC_DATA :: (v ++ rest)) =
        (d, some Err.eoverflow)) := by
  refine ⟨fun h => ⟨?_, ?_⟩, fun h2 h29 => ⟨?_, ?_⟩, fun h30 => ⟨?_, ?_⟩⟩
  · rw [parse_eir_loop_entry, applyEntry_service_short d v h]
  · rw [parse_eir_loop_entry, applyEntry_ms_short d v h]
  · rw [parse_eir_loop_entry, applyEntry_service_store d v h2 h29]
  · rw [parse_eir_loop_entry, applyEntry_ms_store d v h2 h29]
  · rw [parse_eir_loop_entry, applyEntry_service_overflow d v h30]
  · rw [parse_eir_loop_entry, applyEntry_ms_overflow d v h30]

/-- Witness for C4: a service-data entry of value length 29 decodes
successfully with a 27-byte payload and the presence bit set, one of value
length 30 fails with the overflow error, and one of value length 1 is
skipped without error. -/
theorem C4_service_ms_entries_witness :
    (parse_eir init0 (30 :: 22 :: List.replicate 29 7)).2 = none ∧
    (parse_eir init0 (30 :: 22 :: List.replicate 29 7)).1.service_data_len = 27 ∧
    (parse_eir init0 (30 :: 22 :: List.replicate 29 7)).1.has &&&
      BLE_ADV_HAS_SERVICE_DATA ≠ 0 ∧
    (parse_eir init0 (31 :: 22 :: List.replicate 30 7)).2 = some Err.eoverflow ∧
    (parse_eir init0 (2 :: 22 :: [9])).2 = none ∧
    (parse_eir init0 (2 :: 22 :: [9])).1.has &&& BLE_ADV_HAS_SERVICE_DATA = 0 := by
  have h29 := ((C4_service_ms_entries
      { init0 with name_len := 0, uri_len := 0, tx_power := INT8_MAX, has := 0 }
      (List.replicate 29 7) []).2.1 (by simp) (by simp)).1
  have h30 := ((C4_service_ms_entries
      { init0 with name_len := 0, uri_len := 0, tx_power := INT8_MAX, has := 0 }
      (List.replicate 30 7) []).2.2 (by simp)).1
  have h1 := ((C4_service_ms_entries
      { init0 with name_len := 0, uri_len := 0, tx_power := INT8_MAX, has := 0 }
      [9] []).1 (by simp)).1
  refine ⟨?_, ?_, ?_, ?_, ?_, ?_⟩
  · show (parse_eir_loop _ _).2 = none
    rw [show (30 : Nat) :: 22 :: List.replicate 29 7 =
          ((List.replicate 29 7).length + 1) :: EIR_SERVICE_DATA ::
            (List.replicate 29 7 ++ []) by simp [EIR_SERVICE_DATA]]
    rw [h29, parse_eir_loop_nil]
  · show (parse_eir_loop _ _).1.service_data_len = 27
    rw [show (30 : Nat) :: 22 :: List.replicate 29 7 =
          ((List.replicate 29 7).length + 1) :: EIR_SERVICE_DATA ::
            (List.replicate 29 7 ++ []) by simp [EIR_SERVICE_DATA]]
    rw [h29, parse_eir_loop_nil]
    decide
  · show (parse_eir_loop _ _).1.has &&& BLE_ADV_HAS_SERVICE_DATA ≠ 0
    rw [show (30 : Nat) :: 22 :: List.replicate 29 7 =
          ((List.replicate 29 7).length + 1) :: EIR_SERVICE_DATA ::
            (List.replicate 29 7 ++ []) by simp [EIR_SERVICE_DATA]]
    rw [h29, parse_eir_loop_nil]
    decide
  · show (parse_eir_loop _ _).2 = some Err.eoverflow
    rw [show (31 : Nat) :: 22 :: List.replicate 30 7 =
          ((List.replicate 30 7).length + 1) :: EIR_SERVICE_DATA ::
            (List.replicate 30 7 ++ []) by simp [EIR_SERVICE_DATA]]
    rw [h30]
  · show (parse_eir_loop _ _).2 = none
    rw [show (2 : Nat) :: 22 :: [9] =
          (([9] : List Nat).length + 1) :: EIR_SERVICE_DATA ::
            ([9] ++ []) by simp [EIR_SERVICE_DATA]]
    rw [h1, parse_eir_loop_nil]
  · show (parse_eir_loop _ _).1.has &&& BLE_ADV_HAS_SERVICE_DATA = 0
    rw [show (2 : Nat) :: 22 :: [9] =
          (([9] : List Nat).length + 1) :: EIR_SERVICE_DATA ::
            ([9] ++ []) by simp [EIR_SERVICE_DATA]]
    rw [h1, parse_eir_loop_nil]
    decide

/-- Counterexample to C5 as stated: the claim predicts that a complete
local-name entry with value length 28 (equal to the stated capacity of 28)
fails with the overflow error, but the code only rejects value lengths
whose copy plus terminator exceeds the 29-byte array: a 28-byte name
decodes successfully with name_len = 28. -/
theorem C5_name_28_counterexample :
    (parse_eir init0 (29 :: 9 :: List.replicate 28 65)).2 = none ∧
    (parse_eir init0 (29 :: 9 :: List.replicate 28 65)).1.name_len = 28 := by
  have h := (parse_eir_loop_entry
    { init0 with name_len := 0, uri_len := 0, tx_power := INT8_MAX, has := 0 }
    9 (List.replicate 28 65) [])
  rw [applyEntry_name_store _ _ 9 (Or.inr rfl) (by decide) (by decide)] at h
  constructor
  · show (parse_eir_loop _ _).2 = none
    rw [show (29 : Nat) :: 9 :: List.replicate 28 65 =
          ((List.replicate 28 65).length + 1) :: 9 ::
            (List.replicate 28 65 ++ []) by simp]
    rw [h, parse_eir_loop_nil]
  · show (parse_eir_loop _ _).1.name_len = 28
    rw [show (29 : Nat) :: 9 :: List.replicate 28 65 =
          ((List.replicate 28 65).length + 1) :: 9 ::
            (List.replicate 28 65 ++ []) by simp]
    rw [h, parse_eir_loop_nil]
    decide

/-- C5 (amended): a Short or Complete local-name entry with non-empty value
fails with the overflow error exactly when its value length is at least 29
(value plus terminating zero byte exceeding the 29-byte array), not 28 as
claimed; for value lengths up to 28 the value bytes are copied into the
name field, a zero byte is appended, and name_len is set to the value
length. -/
theorem C5_name_entry (d : ble_adv) (v rest : List Nat) (tag : Nat)
    (htag : tag = EIR_NAME_SHORT ∨ tag = EIR_NAME_COMPLETE) (hne : v ≠ []) :
    (29 ≤ v.length →
      parse_eir_loop d ((v.length + 1) :: tag :: (v ++ rest)) =
        (d, some Err.eoverflow)) ∧
    (v.length ≤ 28 →
      parse_eir_loop d ((v.length + 1) :: tag :: (v ++ rest)) =
        parse_eir_loop
          { d with
              name := writeBytes d.name (v ++ [0]),
              name_len := v.length } rest) := by
  constructor
  · intro h29
    rw [parse_eir_loop_entry, applyEntry_name_overflow d v tag htag h29]
  · intro h28
    rw [parse_eir_loop_entry, applyEntry_name_store d v tag htag hne h28]

/-- Witness for C5 (amended): a 29-byte name overflows, a 28-byte name is
stored with its terminator. -/
theorem C5_name_entry_witness :
    parse_eir_loop init0
        (((List.replicate 29 65).length + 1) :: 8 :: (List.replicate 29 65 ++ [])) =
      (init0, some Err.eoverflow) ∧
    parse_eir_loop init0
        (((List.replicate 28 65).length + 1) :: 8 :: (List.replicate 28 65 ++ [])) =
      parse_eir_loop
        { init0 with
            name := writeBytes init0.name (List.replicate 28 65 ++ [0]),
            name_len := (List.replicate 28 65).length } [] :=
  ⟨(C5_name_entry init0 (List.replicate 29 65) [] 8 (Or.inl rfl) (by decide)).1
     (by decide),
   (C5_name_entry init0 (List.replicate 28 65) [] 8 (Or.inl rfl) (by decide)).2
     (by decide)⟩

theorem ble_adv_fallbacks_addr (d : ble_adv) : (ble_adv_fallbacks d).addr = d.addr := by
  unfold ble_adv_fallbacks ble_adv_fallback_uri ble_adv_fallback_name
  split_ifs <;> rfl

theorem parse_eir_addr (d : ble_adv) (eir : List Nat) :
    (parse_eir d eir).1.addr = d.addr := by
  obtain ⟨n, hw⟩ := parse_eir_loop_foldl_take
    { d with name_len := 0, uri_len := 0, tx_power := INT8_MAX, has := 0 } eir
  rw [parse_eir, hw, foldl_applyOk_addr]

/-- C6: whenever assembly of a raw advertisement succeeds, the 6-byte
address in the output record is the byte-reversal of the wire-order address
bytes; in particular wire bytes [0xAA,0xBB,0xCC,0xDD,0xEE,0xFF] produce the
display address [0xFF,0xEE,0xDD,0xCC,0xBB,0xAA]. -/
theorem C6_addr_reversal (d : ble_adv) (bdaddr eirData : List Nat) (rssi : Nat)
    (hok : (ble_adv_read_assemble d bdaddr eirData rssi).2 = none) :
    (ble_adv_read_assemble d bdaddr eirData rssi).1.addr =
      [bdaddr.getD 5 0, bdaddr.getD 4 0, bdaddr.getD 3 0,
       bdaddr.getD 2 0, bdaddr.getD 1 0, bdaddr.getD 0 0] ∧
    (bdaddr = [0xAA, 0xBB, 0xCC, 0xDD, 0xEE, 0xFF] →
      (ble_adv_read_assemble d bdaddr eirData rssi).1.addr =
        [0xFF, 0xEE, 0xDD, 0xCC, 0xBB, 0xAA]) := by
  have haddr := parse_eir_addr
    { d with addr := [bdaddr.getD 5 0, bdaddr.getD 4 0, bdaddr.getD 3 0,
                      bdaddr.getD 2 0, bdaddr.getD 1 0, bdaddr.getD 0 0] } eirData
  have hmain : (ble_adv_read_assemble d bdaddr eirData rssi).1.addr =
      [bdaddr.getD 5 0, bdaddr.getD 4 0, bdaddr.getD 3 0,
       bdaddr.getD 2 0, bdaddr.getD 1 0, bdaddr.getD 0 0] := by
    rcases hp : parse_eir
      { d with addr := [bdaddr.getD 5 0, bdaddr.getD 4 0, bdaddr.getD 3 0,
                        bdaddr.getD 2 0, bdaddr.getD 1 0, bdaddr.getD 0 0] } eirData
      with ⟨p1, p2⟩
    rw [hp] at haddr
    cases p2 with
    | some e => simp only [ble_adv_read_assemble, hp] at hok; cases hok
    | none =>
        simp only [ble_adv_read_assemble, hp]
        simp only [ble_adv_fallbacks_addr]
        exact haddr
  refine ⟨hmain, fun hb => ?_⟩
  rw [hmain, hb]
  decide

/-- Witness for C6: assembling an event with wire address
[0xAA,0xBB,0xCC,0xDD,0xEE,0xFF] and empty advertising data yields the
reversed display address. -/
theorem C6_addr_reversal_witness :
    (ble_adv_read_assemble init0 [0xAA, 0xBB, 0xCC, 0xDD, 0xEE, 0xFF] [] 0).1.addr =
      [0xFF, 0xEE, 0xDD, 0xCC, 0xBB, 0xAA] :=
  (C6_addr_reversal init0 [0xAA, 0xBB, 0xCC, 0xDD, 0xEE, 0xFF] [] 0
    (by simp [ble_adv_read_assemble, parse_eir, parse_eir_loop])).2 rfl

theorem ble_adv_fallbacks_lens (d : ble_adv) :
    (ble_adv_fallbacks d).name_len = d.name_len ∧
    (ble_adv_fallbacks d).uri_len = d.uri_len := by
  unfold ble_adv_fallbacks ble_adv_fallback_uri ble_adv_fallback_name
  split_ifs <;> simp_all

theorem ble_adv_fallbacks_name_of (d : ble_adv) (h : d.name_len = 0) :
    (ble_adv_fallbacks d).name = writeBytes d.name UNKNOWN_NAME := by
  unfold ble_adv_fallbacks ble_adv_fallback_uri ble_adv_fallback_name
  split_ifs <;> simp_all

theorem ble_adv_fallbacks_uri_of (d : ble_adv) (h : d.uri_len = 0) :
    (ble_adv_fallbacks d).uri = writeBytes d.uri [0] := by
  unfold ble_adv_fallbacks ble_adv_fallback_uri ble_adv_fallback_name
  split_ifs <;> simp_all

/-- C7: when the advertising data holds no Short or Complete local-name
entry, the assembled record has name_len = 0 (the authoritative absence
indicator) while its name bytes begin with the zero-terminated placeholder
string "<unknown>"; when it holds no URI entry, uri_len = 0 and the URI
bytes begin with the empty string's terminating zero byte. -/
theorem C7_absent_name_uri (d : ble_adv) (bdaddr eirData : List Nat) (rssi : Nat)
    (hok : (ble_adv_read_assemble d bdaddr eirData rssi).2 = none) :
    ((∀ e ∈ eirEntries eirData, e.1 ≠ EIR_NAME_SHORT ∧ e.1 ≠ EIR_NAME_COMPLETE) →
      (ble_adv_read_assemble d bdaddr eirData rssi).1.name_len = 0 ∧
      (ble_adv_read_assemble d bdaddr eirData rssi).1.name.take 10 = UNKNOWN_NAME) ∧
    ((∀ e ∈ eirEntries eirData, e.1 ≠ EIR_URI) →
      (ble_adv_read_assemble d bdaddr eirData rssi).1.uri_len = 0 ∧
      (ble_adv_read_assemble d bdaddr eirData rssi).1.uri.take 1 = [0]) := by
  rcases hp : parse_eir
    { d with addr := [bdaddr.getD 5 0, bdaddr.getD 4 0, bdaddr.getD 3 0,
                      bdaddr.getD 2 0, bdaddr.getD 1 0, bdaddr.getD 0 0] } eirData
    with ⟨p1, p2⟩
  cases p2 with
  | some e => simp only [ble_adv_read_assemble, hp] at hok; cases hok
  | none =>
      have hfold := parse_eir_loop_foldl_of_ok
        { { d with addr := [bdaddr.getD 5 0, bdaddr.getD 4 0, bdaddr.getD 3 0,
                            bdaddr.getD 2 0, bdaddr.getD 1 0, bdaddr.getD 0 0] }
          with name_len := 0, uri_len := 0, tx_power := INT8_MAX, has := 0 }
        eirData (by rw [← parse_eir, hp])
      rw [← parse_eir, hp] at hfold
      simp only [ble_adv_read_assemble, hp]
      constructor
      · intro hno
        have hnl : p1.name_len = 0 := by
          have h2 : p1 = List.foldl applyOk _ (eirEntries eirData) := hfold
          rw [h2, (foldl_applyOk_name (eirEntries eirData) _ hno).2]
        refine ⟨?_, ?_⟩
        · simp [(ble_adv_fallbacks_lens p1).1, hnl]
        · have hname := ble_adv_fallbacks_name_of p1 hnl
          simp only [hname]
          have := writeBytes_take p1.name UNKNOWN_NAME
          simpa using this
      · intro hno
        have hul : p1.uri_len = 0 := by
          have h2 : p1 = List.foldl applyOk _ (eirEntries eirData) := hfold
          rw [h2, (foldl_applyOk_uri (eirEntries eirData) _ hno).2]
        refine ⟨?_, ?_⟩
        · simp [(ble_adv_fallbacks_lens p1).2, hul]
        · have huri := ble_adv_fallbacks_uri_of p1 hul
          simp only [huri]
          have := writeBytes_take p1.uri [0]
          simpa using this

/-- Witness for C7: assembling an event whose advertising data is the
flags-only buffer [2,1,6] yields name_len 0 with the "<unknown>"
placeholder and uri_len 0 with the empty URI string. -/
theorem C7_absent_name_uri_witness :
    ((ble_adv_read_assemble init0 [1, 2, 3, 4, 5, 6] [2, 1, 6] 0).1.name_len = 0 ∧
     (ble_adv_read_assemble init0 [1, 2, 3, 4, 5, 6] [2, 1, 6] 0).1.name.take 10 =
       UNKNOWN_NAME) ∧
    ((ble_adv_read_assemble init0 [1, 2, 3, 4, 5, 6] [2, 1, 6] 0).1.uri_len = 0 ∧
     (ble_adv_read_assemble init0 [1, 2, 3, 4, 5, 6] [2, 1, 6] 0).1.uri.take 1 = [0]) := by
  have h := C7_absent_name_uri init0 [1, 2, 3, 4, 5, 6] [2, 1, 6] 0
    (by simp [ble_adv_read_assemble, parse_eir, parse_eir_loop, applyEntry])
  exact ⟨h.1 (by simp [eirEntries, EIR_NAME_SHORT, EIR_NAME_COMPLETE]),
         h.2 (by simp [eirEntries, EIR_URI])⟩

/-- C9: with scanning requested on a valid descriptor, a first
set-scan-parameters failure with an errno other than EIO is surfaced at
once, with no disable and no retry; a first failure with EIO (the
device-busy condition) triggers exactly one recovery cycle of one
scan-enable=false command and one retry of set-scan-parameters, and a
failing retry is surfaced with no third attempt, while a successful retry
leaves exactly two set-scan-parameters commands in the whole trace. -/
theorem C9_scan_busy_retry (dev : Int) (flags : Nat) (resp : Nat → Option Nat)
    (hdev : dev ≠ -1) (hen : flags &&& BLE_ADV_SCAN_FLAG_ENABLED ≠ 0) :
    (∀ e, resp 0 = some e → e ≠ EIO_CODE →
      ble_adv_scan dev flags resp = ([HciCmd.setScanParameters], false)) ∧
    (resp 0 = some EIO_CODE → resp 1 = none → ∀ e, resp 2 = some e →
      ble_adv_scan dev flags resp =
        ([HciCmd.setScanParameters, HciCmd.setScanEnable false 0,
          HciCmd.setScanParameters], false)) ∧
    (resp 0 = some EIO_CODE → resp 1 = none → resp 2 = none →
      (ble_adv_scan dev flags resp).1.take 3 =
        [HciCmd.setScanParameters, HciCmd.setScanEnable false 0,
         HciCmd.setScanParameters] ∧
      (ble_adv_scan dev flags resp).1.count HciCmd.setScanParameters = 2) := by
  refine ⟨fun e h0 hne => ?_, fun h0 h1 e h2 => ?_, fun h0 h1 h2 => ?_⟩
  · unfold ble_adv_scan
    simp [hdev, hen, h0, hne]
  · unfold ble_adv_scan
    simp [hdev, hen, h0, h1, h2]
  · unfold ble_adv_scan scanTail
    simp only [hdev, hen, h0, h1, h2, if_neg, if_false]
    cases h3 : resp 3 with
    | some e3 => simp [hdev, hen, h3, List.count_cons, List.count_nil]
    | none =>
        cases h4 : resp 4 with
        | some e4 => simp [hdev, hen, h3, h4, List.count_cons, List.count_nil]
        | none => simp [hdev, hen, h3, h4, List.count_cons, List.count_nil]

/-- Witness for C9: with a non-EIO first failure only the parameter-set
command is issued; with EIO, a successful disable and a failing retry, the
trace is exactly parameter-set, disable, parameter-set; with EIO, a
successful disable and a successful retry, the trace holds exactly two
parameter-set commands. -/
theorem C9_scan_busy_retry_witness :
    ble_adv_scan 0 1 (fun k => if k = 0 then some 13 else none) =
      ([HciCmd.setScanParameters], false) ∧
    ble_adv_scan 0 1 (fun k => if k = 0 then some 5 else if k = 2 then some 5 else none) =
      ([HciCmd.setScanParameters, HciCmd.setScanEnable false 0,
        HciCmd.setScanParameters], false) ∧
    (ble_adv_scan 0 1 (fun k => if k = 0 then some 5 else none)).1.count
      HciCmd.setScanParameters = 2 :=
  ⟨(C9_scan_busy_retry 0 1 (fun k => if k = 0 then some 13 else none)
      (by decide) (by decide)).1 13 rfl (by decide),
   (C9_scan_busy_retry 0 1 (fun k => if k = 0 then some 5 else if k = 2 then some 5 else none)
      (by decide) (by decide)).2.1 rfl rfl 5 rfl,
   ((C9_scan_busy_retry 0 1 (fun k => if k = 0 then some 5 else none)
      (by decide) (by decide)).2.2 rfl rfl rfl).2⟩
